import Mathlib

/-!
# Lomography filter: tone curve, vignette geometry and parameter controller

A shallow embedding of `src/main.cpp`.

* Images (`cv::Mat`) are a row count, a column count and the row-major list of
  their elements. A `CV_8UC3` image has `Pixel` elements, a single-channel
  plane has `Nat` elements.
* The arithmetic of the tone curve is written once over an ordered field `K`
  with a floor function and an exponential `expf : K → K` passed in, so the
  definitions can be run over `ℚ`; the theorems about the curve take `K = ℝ`
  and `expf = Real.exp`.
* The floating-point halo construction, box blur and blend at the end of
  `applyVignetteFilter` are one function parameter `haloBlend` of the image
  size, the radius, the kernel size and the colour-filtered image.
* C++ `int` values are `Int`; `/` on them is truncating division. The product
  `vignetteParam * maxRadius` stays far below `2^31` for slider values in
  `0..100` and any image that `cv::imread` can load (sides at most `2^20`).
-/

namespace Lomography

/-! ## Data model -/

/-- One element of a `CV_8UC3` matrix: the three 8-bit channels in storage order. -/
structure Pixel where
  c0 : Nat
  c1 : Nat
  c2 : Nat
deriving DecidableEq, Repr

/-- A `cv::Mat`: dimensions and row-major element data. -/
structure Mat (α : Type) where
  rows : Nat
  cols : Nat
  data : List α
deriving DecidableEq, Repr

/-- The default-constructed `cv::Mat`. -/
def Mat.nil {α : Type} : Mat α := ⟨0, 0, []⟩

/-- The element count `cv::Mat::total()`. -/
def Mat.total {α : Type} (m : Mat α) : Nat := m.rows * m.cols

/-- The test `cv::Mat::empty()`: no data or no elements. -/
def Mat.empty {α : Type} (m : Mat α) : Bool := m.data.isEmpty || m.total == 0

/-- The element at row `r`, column `c`, when the position is inside the matrix. -/
def Mat.at? {α : Type} (m : Mat α) (r c : Nat) : Option α :=
  if r < m.rows ∧ c < m.cols then m.data[r * m.cols + c]? else none

/-- The copy `cv::Mat::clone()`. -/
def Mat.clone {α : Type} (m : Mat α) : Mat α := m

/-! ## OpenCV primitives used by the tone curve -/

/-- The conversion `cv::saturate_cast<uchar>(int)`. -/
def saturate_cast_uchar (v : Int) : Nat :=
  if v < 0 then 0 else if 255 < v then 255 else v.toNat

section Field

variable {K : Type} [LinearOrderedField K] [FloorRing K]

/-- The rounding `cvRound(double)`: nearest integer, a tie going to the even one. -/
def cvRound (x : K) : Int :=
  if x - (⌊x⌋ : K) < 1 / 2 then ⌊x⌋
  else if 1 / 2 < x - (⌊x⌋ : K) then ⌊x⌋ + 1
  else if ⌊x⌋ % 2 = 0 then ⌊x⌋ else ⌊x⌋ + 1

/-- The value stored at `lut.at<uchar>(0, i)` by the loop of `applyColorFilter`. -/
def lutEntry (expf : K → K) (colorParam : K) (i : Nat) : Nat :=
  saturate_cast_uchar (cvRound (256 / (1 + expf (-(((i : K) / 256.0) - 0.5) / colorParam))))

/-- The `1 × 256` look-up table built by `applyColorFilter`. -/
def buildLut (expf : K → K) (colorParam : K) : Mat Nat :=
  ⟨1, 256, (List.range 256).map (lutEntry expf colorParam)⟩

end Field

/-- The channel decomposition `cv::split` of a three-channel image. -/
def split (m : Mat Pixel) : List (Mat Nat) :=
  [⟨m.rows, m.cols, m.data.map Pixel.c0⟩,
   ⟨m.rows, m.cols, m.data.map Pixel.c1⟩,
   ⟨m.rows, m.cols, m.data.map Pixel.c2⟩]

/-- The table look-up `cv::LUT(src, lut, dst)` on a single-channel plane. -/
def LUT (src : Mat Nat) (lut : Mat Nat) : Mat Nat :=
  ⟨src.rows, src.cols, src.data.map (fun v => lut.data.getD v 0)⟩

/-- Interleaving of three planes of channel values. -/
def zipChannels : List Nat → List Nat → List Nat → List Pixel
  | a :: as, b :: bs, c :: cs => ⟨a, b, c⟩ :: zipChannels as bs cs
  | _, _, _ => []

/-- The channel composition `cv::merge` of a vector of three planes. -/
def merge : List (Mat Nat) → Mat Pixel
  | [a, b, c] => ⟨a.rows, a.cols, zipChannels a.data b.data c.data⟩
  | _ => Mat.nil

/-! ## Controller state -/

/-- The globals of `main.cpp`, and the image last passed to `cv::imshow`. -/
structure State (K : Type) where
  inputImage : Mat Pixel
  colorFilteredImage : Mat Pixel
  finalImage : Mat Pixel
  colorParam : K
  vignetteParam : Int
  shown : Mat Pixel

section Field

variable {K : Type} [LinearOrderedField K] [FloorRing K]

/-- The image that `applyColorFilter` merges from `source` with parameter `colorParam`. -/
def toneCurve (expf : K → K) (source : Mat Pixel) (colorParam : K) : Mat Pixel :=
  let lut := buildLut expf colorParam
  let channels := split source
  let channels := channels.set 2 (LUT (channels.getD 2 Mat.nil) lut)
  merge channels

/-- The function `applyColorFilter`. -/
def applyColorFilter (expf : K → K) (s : State K) : State K :=
  let out := toneCurve expf s.inputImage s.colorParam
  { s with colorFilteredImage := out, shown := out }

end Field

/-- The value `maxRadius` of `applyVignetteFilter`. -/
def maxRadius (inputImage : Mat Pixel) : Int :=
  Int.tdiv (min (inputImage.rows : Int) (inputImage.cols : Int)) 2

/-- The value `radius` of `applyVignetteFilter`. -/
def vignetteRadius (vignetteParam : Int) (inputImage : Mat Pixel) : Int :=
  max 1 (Int.tdiv (vignetteParam * maxRadius inputImage) 100)

/-- The value `blurKernelSize` of `applyVignetteFilter`. -/
def blurKernelSize (radius : Int) : Int :=
  Int.lor (max 1 radius) 1

/-- The image `applyVignetteFilter` computes from the colour-filtered image. -/
def vignette (haloBlend : Nat → Nat → Int → Int → Mat Pixel → Mat Pixel)
    (inputImage colorFiltered : Mat Pixel) (vignetteParam : Int) : Mat Pixel :=
  let radius := vignetteRadius vignetteParam inputImage
  haloBlend inputImage.rows inputImage.cols radius (blurKernelSize radius) colorFiltered

/-- The function `applyVignetteFilter`. -/
def applyVignetteFilter {K : Type}
    (haloBlend : Nat → Nat → Int → Int → Mat Pixel → Mat Pixel) (s : State K) : State K :=
  let colorFiltered :=
    if s.colorFilteredImage.empty then s.inputImage.clone else s.colorFilteredImage
  let out := vignette haloBlend s.inputImage colorFiltered s.vignetteParam
  { s with colorFilteredImage := colorFiltered, finalImage := out, shown := out }

section Field

variable {K : Type} [LinearOrderedField K] [FloorRing K]

/-- The callback `onColorTrackbar`. -/
def onColorTrackbar (expf : K → K)
    (haloBlend : Nat → Nat → Int → Int → Mat Pixel → Mat Pixel)
    (value : Int) (s : State K) : State K :=
  let s := { s with colorParam := max 0.08 ((value : K) / 100.0) }
  applyVignetteFilter haloBlend (applyColorFilter expf s)

/-- The callback `onVignetteTrackbar`. -/
def onVignetteTrackbar (haloBlend : Nat → Nat → Int → Int → Mat Pixel → Mat Pixel)
    (value : Int) (s : State K) : State K :=
  applyVignetteFilter haloBlend { s with vignetteParam := value }

/-- The slider events delivered to the two callbacks. -/
inductive Event where
  | ColorChanged (value : Int)
  | VignetteChanged (value : Int)
deriving DecidableEq, Repr

/-- Dispatch of a slider event to its callback. -/
def handle (expf : K → K)
    (haloBlend : Nat → Nat → Int → Int → Mat Pixel → Mat Pixel)
    (e : Event) (s : State K) : State K :=
  match e with
  | .ColorChanged v => onColorTrackbar expf haloBlend v s
  | .VignetteChanged v => onVignetteTrackbar haloBlend v s

/-- The globals right after `main` has loaded `img`: derived images not yet computed. -/
def loaded (img : Mat Pixel) : State K :=
  { inputImage := img, colorFilteredImage := Mat.nil, finalImage := Mat.nil,
    colorParam := 0.1, vignetteParam := 100, shown := Mat.nil }

/-- The initial display of `main`: both filters, in order. -/
def initialDisplay (expf : K → K)
    (haloBlend : Nat → Nat → Int → Int → Mat Pixel → Mat Pixel) (s : State K) : State K :=
  applyVignetteFilter haloBlend (applyColorFilter expf s)

/-- States `main` can be in once a non-empty image is loaded: the loaded state, then any
callbacks (setting a trackbar position may already fire one) and the initial display. -/
inductive Reachable (expf : K → K)
    (haloBlend : Nat → Nat → Int → Int → Mat Pixel → Mat Pixel) : State K → Prop where
  | load (img : Mat Pixel) (h : img.empty = false) : Reachable expf haloBlend (loaded img)
  | display {s : State K} (h : Reachable expf haloBlend s) :
      Reachable expf haloBlend (initialDisplay expf haloBlend s)
  | event {s : State K} (e : Event) (h : Reachable expf haloBlend s) :
      Reachable expf haloBlend (handle expf haloBlend e s)

/-- States from the initial display of `main` on: the display, then any slider events. -/
inductive Rendered (expf : K → K)
    (haloBlend : Nat → Nat → Int → Int → Mat Pixel → Mat Pixel) : State K → Prop where
  | display {s : State K} (h : Reachable expf haloBlend s) :
      Rendered expf haloBlend (initialDisplay expf haloBlend s)
  | event {s : State K} (e : Event) (h : Rendered expf haloBlend s) :
      Rendered expf haloBlend (handle expf haloBlend e s)

end Field


/-! ## Reference formulas and sample data -/

/-- The radius as the specification words it: `max(1, round(vignetteParam * maxRadius / 100))`
with `maxRadius = min(w, h) / 2` by integer division and the exact quotient rounded to the
nearest integer. -/
def radiusSpec (vignetteParam : Int) (w h : Nat) : Int :=
  max 1 (round ((((vignetteParam * ((min w h / 2 : Nat) : Int) : Int) : ℚ)) / 100))

/-- The mid-gray pixel. -/
def midGray : Pixel := ⟨128, 128, 128⟩

/-- The image of the given size with every pixel equal to `p`. -/
def uniform (rows cols : Nat) (p : Pixel) : Mat Pixel :=
  ⟨rows, cols, List.replicate (rows * cols) p⟩

/-- The blend of a mask of weight one everywhere: the colour-filtered image itself. -/
def unitBlend : Nat → Nat → Int → Int → Mat Pixel → Mat Pixel :=
  fun _ _ _ _ m => m

/-! ## Rounding and saturation -/

theorem saturate_cast_uchar_le (v : Int) : saturate_cast_uchar v ≤ 255 := by
  unfold saturate_cast_uchar
  split_ifs <;> omega

theorem saturate_cast_uchar_mono {a b : Int} (h : a ≤ b) :
    saturate_cast_uchar a ≤ saturate_cast_uchar b := by
  unfold saturate_cast_uchar
  split_ifs <;> omega

section Field

variable {K : Type} [LinearOrderedField K] [FloorRing K]

theorem floor_le_cvRound (x : K) : ⌊x⌋ ≤ cvRound x := by
  unfold cvRound
  split_ifs <;> omega

theorem cvRound_le_floor_succ (x : K) : cvRound x ≤ ⌊x⌋ + 1 := by
  unfold cvRound
  split_ifs <;> omega

theorem cvRound_mono {x y : K} (h : x ≤ y) : cvRound x ≤ cvRound y := by
  have hf : ⌊x⌋ ≤ ⌊y⌋ := Int.floor_mono h
  rcases hf.lt_or_eq with hlt | heq
  · calc cvRound x ≤ ⌊x⌋ + 1 := cvRound_le_floor_succ x
      _ ≤ ⌊y⌋ := hlt
      _ ≤ cvRound y := floor_le_cvRound y
  · unfold cvRound
    rw [← heq]
    split_ifs <;> first | omega | (exfalso; linarith)

theorem cvRound_intCast (n : Int) : cvRound (n : K) = n := by
  unfold cvRound
  simp

/-! ## The remap table -/

theorem lutEntry_le (expf : K → K) (c : K) (i : Nat) : lutEntry expf c i ≤ 255 :=
  saturate_cast_uchar_le _

theorem lutEntry_mono (expf : K → K) (hmono : Monotone expf) (hpos : ∀ x, 0 < expf x)
    {c : K} (hc : 0 < c) {i j : Nat} (hij : i ≤ j) :
    lutEntry expf c i ≤ lutEntry expf c j := by
  unfold lutEntry
  apply saturate_cast_uchar_mono
  apply cvRound_mono
  have hcast : (i : K) ≤ (j : K) := by exact_mod_cast hij
  have harg : -(((j : K) / 256.0) - 0.5) / c ≤ -(((i : K) / 256.0) - 0.5) / c := by
    apply div_le_div_of_nonneg_right _ hc.le
    have : (i : K) / 256.0 ≤ (j : K) / 256.0 :=
      div_le_div_of_nonneg_right hcast (by norm_num)
    linarith
  have hexp := hmono harg
  have hi := hpos (-(((i : K) / 256.0) - 0.5) / c)
  have hj := hpos (-(((j : K) / 256.0) - 0.5) / c)
  apply div_le_div_of_nonneg_left (by norm_num) (by linarith) (by linarith)

theorem buildLut_getD (expf : K → K) (c : K) {i : Nat} (hi : i < 256) :
    (buildLut expf c).data.getD i 0 = lutEntry expf c i := by
  simp [buildLut, List.getD_eq_getElem?_getD, List.getElem?_map, List.getElem?_range hi]

theorem lutEntry_mid (expf : K → K) (h0 : expf 0 = 1) (c : K) :
    lutEntry expf c 128 = 128 := by
  unfold lutEntry
  have harg : -(((128 : Nat) : K) / 256.0 - 0.5) / c = 0 := by norm_num
  rw [harg, h0]
  have h : (256 : K) / (1 + 1) = ((128 : Int) : K) := by norm_num
  rw [h, cvRound_intCast]
  rfl


/-! ## Channel plumbing of the tone curve -/

theorem zipChannels_map (f g h : Pixel → Nat) (l : List Pixel) :
    zipChannels (l.map f) (l.map g) (l.map h) = l.map (fun p => ⟨f p, g p, h p⟩) := by
  induction l with
  | nil => rfl
  | cons p l ih => simp [zipChannels, ih]

theorem toneCurve_eq (expf : K → K) (source : Mat Pixel) (c : K) :
    toneCurve expf source c =
      ⟨source.rows, source.cols,
        source.data.map (fun p => ⟨p.c0, p.c1, (buildLut expf c).data.getD p.c2 0⟩)⟩ := by
  have hz := zipChannels_map Pixel.c0 Pixel.c1
    (fun p => (buildLut expf c).data.getD p.c2 0) source.data
  simpa [toneCurve, split, merge, LUT, Function.comp_def] using hz

theorem toneCurve_empty (expf : K → K) (source : Mat Pixel) (c : K) :
    (toneCurve expf source c).empty = source.empty := by
  rw [toneCurve_eq]
  cases source with
  | mk r k d => cases d <;> simp [Mat.empty, Mat.total]

theorem toneCurve_at? (expf : K → K) (source : Mat Pixel) (c : K) (r k : Nat) :
    (toneCurve expf source c).at? r k =
      (source.at? r k).map (fun p => ⟨p.c0, p.c1, (buildLut expf c).data.getD p.c2 0⟩) := by
  rw [toneCurve_eq]
  unfold Mat.at?
  split_ifs <;> simp [List.getElem?_map]


/-! ## Vignette geometry -/

end Field

theorem nat_lor_one (n : Nat) : n ||| 1 = if n % 2 = 1 then n else n + 1 := by
  have h1 : (n ||| 1) % 2 = 1 := Nat.or_mod_two_eq_one.mpr (Or.inr rfl)
  have h2 : (n ||| 1) / 2 = n / 2 := by
    rw [Nat.or_div_two]
    simp
  split_ifs <;> omega

theorem int_lor_one {r : Int} (hr : 0 ≤ r) :
    Int.lor r 1 = if r % 2 = 1 then r else r + 1 := by
  obtain ⟨n, rfl⟩ := Int.eq_ofNat_of_zero_le hr
  have h : Int.lor (n : Int) 1 = ((n ||| 1 : Nat) : Int) := rfl
  rw [h, nat_lor_one]
  split_ifs <;> omega

theorem one_le_vignetteRadius (vignetteParam : Int) (img : Mat Pixel) :
    1 ≤ vignetteRadius vignetteParam img :=
  le_max_left _ _

theorem blurKernelSize_eq {r : Int} (hr : 1 ≤ r) :
    blurKernelSize r = if r % 2 = 1 then r else r + 1 := by
  unfold blurKernelSize
  rw [max_eq_right hr, int_lor_one (by omega)]

theorem maxRadius_eq (img : Mat Pixel) :
    maxRadius img = ((min img.rows img.cols / 2 : Nat) : Int) := by
  unfold maxRadius
  rw [Int.tdiv_eq_ediv (by omega) (by omega)]
  omega

theorem vignetteRadius_eq {vignetteParam : Int} (h0 : 0 ≤ vignetteParam) (img : Mat Pixel) :
    vignetteRadius vignetteParam img =
      max 1 (vignetteParam * ((min img.rows img.cols / 2 : Nat) : Int) / 100) := by
  unfold vignetteRadius
  rw [maxRadius_eq, Int.tdiv_eq_ediv (by positivity) (by omega)]

/-! ## Controller -/

theorem applyVignetteFilter_of_nonempty {K : Type}
    (haloBlend : Nat → Nat → Int → Int → Mat Pixel → Mat Pixel) (s : State K)
    (h : s.colorFilteredImage.empty = false) :
    applyVignetteFilter haloBlend s =
      { s with
        finalImage := vignette haloBlend s.inputImage s.colorFilteredImage s.vignetteParam,
        shown := vignette haloBlend s.inputImage s.colorFilteredImage s.vignetteParam } := by
  simp [applyVignetteFilter, h]

theorem onVignetteTrackbar_eq {K : Type}
    (haloBlend : Nat → Nat → Int → Int → Mat Pixel → Mat Pixel) (v : Int) (s : State K)
    (h : s.colorFilteredImage.empty = false) :
    onVignetteTrackbar haloBlend v s =
      { s with
        vignetteParam := v,
        finalImage := vignette haloBlend s.inputImage s.colorFilteredImage v,
        shown := vignette haloBlend s.inputImage s.colorFilteredImage v } :=
  applyVignetteFilter_of_nonempty haloBlend { s with vignetteParam := v } h

theorem colorParam_clamp_ge {K : Type} [LinearOrderedField K] (v : Int) :
    (0.08 : K) ≤ max 0.08 ((v : K) / 100.0) :=
  le_max_left _ _

section Field

variable {K : Type} [LinearOrderedField K] [FloorRing K]

theorem pipeline_fields (expf : K → K)
    (haloBlend : Nat → Nat → Int → Int → Mat Pixel → Mat Pixel) (s : State K)
    (h : s.inputImage.empty = false) :
    applyVignetteFilter haloBlend (applyColorFilter expf s) =
      { inputImage := s.inputImage,
        colorFilteredImage := toneCurve expf s.inputImage s.colorParam,
        finalImage := vignette haloBlend s.inputImage
          (toneCurve expf s.inputImage s.colorParam) s.vignetteParam,
        colorParam := s.colorParam,
        vignetteParam := s.vignetteParam,
        shown := vignette haloBlend s.inputImage
          (toneCurve expf s.inputImage s.colorParam) s.vignetteParam } := by
  have hne : (applyColorFilter expf s).colorFilteredImage.empty = false := by
    simp [applyColorFilter, toneCurve_empty, h]
  rw [applyVignetteFilter_of_nonempty haloBlend _ hne]
  rfl

theorem onColorTrackbar_eq (expf : K → K)
    (haloBlend : Nat → Nat → Int → Int → Mat Pixel → Mat Pixel) (v : Int) (s : State K)
    (h : s.inputImage.empty = false) :
    onColorTrackbar expf haloBlend v s =
      { inputImage := s.inputImage,
        colorFilteredImage := toneCurve expf s.inputImage (max 0.08 ((v : K) / 100.0)),
        finalImage := vignette haloBlend s.inputImage
          (toneCurve expf s.inputImage (max 0.08 ((v : K) / 100.0))) s.vignetteParam,
        colorParam := max 0.08 ((v : K) / 100.0),
        vignetteParam := s.vignetteParam,
        shown := vignette haloBlend s.inputImage
          (toneCurve expf s.inputImage (max 0.08 ((v : K) / 100.0))) s.vignetteParam } :=
  pipeline_fields expf haloBlend { s with colorParam := max 0.08 ((v : K) / 100.0) } h

theorem handle_inputImage (expf : K → K)
    (haloBlend : Nat → Nat → Int → Int → Mat Pixel → Mat Pixel) (e : Event) (s : State K) :
    (handle expf haloBlend e s).inputImage = s.inputImage := by
  cases e <;> rfl

theorem reachable_inputImage_nonempty (expf : K → K)
    (haloBlend : Nat → Nat → Int → Int → Mat Pixel → Mat Pixel) {s : State K}
    (h : Reachable expf haloBlend s) : s.inputImage.empty = false := by
  induction h with
  | load img h => exact h
  | display _ ih => exact ih
  | event e _ ih => rw [handle_inputImage]; exact ih

theorem reachable_colorParam_ge (expf : K → K)
    (haloBlend : Nat → Nat → Int → Int → Mat Pixel → Mat Pixel) {s : State K}
    (h : Reachable expf haloBlend s) : (0.08 : K) ≤ s.colorParam := by
  induction h with
  | load img h => show (0.08 : K) ≤ 0.1; norm_num
  | display _ ih => exact ih
  | event e _ ih =>
    cases e with
    | ColorChanged v => exact colorParam_clamp_ge v
    | VignetteChanged v => exact ih

theorem rendered_consistent (expf : K → K)
    (haloBlend : Nat → Nat → Int → Int → Mat Pixel → Mat Pixel) {s : State K}
    (h : Rendered expf haloBlend s) :
    s.inputImage.empty = false ∧
    s.colorFilteredImage = toneCurve expf s.inputImage s.colorParam ∧
    s.finalImage = vignette haloBlend s.inputImage s.colorFilteredImage s.vignetteParam ∧
    s.shown = s.finalImage := by
  induction h with
  | @display t hr =>
    have hne := reachable_inputImage_nonempty expf haloBlend hr
    unfold initialDisplay
    rw [pipeline_fields expf haloBlend t hne]
    exact ⟨hne, rfl, rfl, rfl⟩
  | @event t e _ ih =>
    obtain ⟨hne, hcf, hfin, _⟩ := ih
    cases e with
    | ColorChanged v =>
      have hstep : handle expf haloBlend (Event.ColorChanged v) t =
          onColorTrackbar expf haloBlend v t := rfl
      rw [hstep, onColorTrackbar_eq expf haloBlend v t hne]
      exact ⟨hne, rfl, rfl, rfl⟩
    | VignetteChanged v =>
      have hcne : t.colorFilteredImage.empty = false := by
        rw [hcf, toneCurve_empty]; exact hne
      have hstep : handle expf haloBlend (Event.VignetteChanged v) t =
          onVignetteTrackbar haloBlend v t := rfl
      rw [hstep, onVignetteTrackbar_eq haloBlend v t hcne]
      exact ⟨hne, hcf, rfl, rfl⟩

end Field

/-! ## The claims -/

/-- C1: over the reals, for every `colorParam ≥ 0.08` the table built by `applyColorFilter`
has 256 entries, entry `i` is the saturated rounding of
`256 / (1 + exp(-((i/256) - 0.5) / colorParam))`, consecutive entries never decrease and
every entry is at most 255. -/
theorem C1_remap_table_monotone_bounded (colorParam : ℝ) (h : 0.08 ≤ colorParam) :
    (buildLut Real.exp colorParam).data.length = 256 ∧
    (∀ i, i < 256 → (buildLut Real.exp colorParam).data.getD i 0 =
      saturate_cast_uchar
        (cvRound (256 / (1 + Real.exp (-(((i : ℝ) / 256.0) - 0.5) / colorParam))))) ∧
    (∀ i, i < 255 → (buildLut Real.exp colorParam).data.getD i 0 ≤
      (buildLut Real.exp colorParam).data.getD (i + 1) 0) ∧
    (∀ i, i < 256 → (buildLut Real.exp colorParam).data.getD i 0 ≤ 255) := by
  have hc : (0 : ℝ) < colorParam := by
    have : (0 : ℝ) < 0.08 := by norm_num
    linarith
  refine ⟨by simp [buildLut], ?_, ?_, ?_⟩
  · intro i hi
    rw [buildLut_getD Real.exp colorParam hi]
    rfl
  · intro i hi
    rw [buildLut_getD Real.exp colorParam (by omega : i < 256),
      buildLut_getD Real.exp colorParam (by omega : i + 1 < 256)]
    exact lutEntry_mono Real.exp Real.exp_monotone Real.exp_pos hc (Nat.le_succ i)
  · intro i hi
    rw [buildLut_getD Real.exp colorParam hi]
    exact lutEntry_le Real.exp colorParam i

/-- Witness of C1 at `colorParam = 0.1`, the initial value. -/
theorem C1_remap_table_witness :
    (0.08 : ℝ) ≤ 0.1 ∧
    ((buildLut Real.exp (0.1 : ℝ)).data.length = 256 ∧
    (∀ i, i < 256 → (buildLut Real.exp (0.1 : ℝ)).data.getD i 0 =
      saturate_cast_uchar
        (cvRound (256 / (1 + Real.exp (-(((i : ℝ) / 256.0) - 0.5) / (0.1 : ℝ)))))) ∧
    (∀ i, i < 255 → (buildLut Real.exp (0.1 : ℝ)).data.getD i 0 ≤
      (buildLut Real.exp (0.1 : ℝ)).data.getD (i + 1) 0) ∧
    (∀ i, i < 256 → (buildLut Real.exp (0.1 : ℝ)).data.getD i 0 ≤ 255)) :=
  ⟨by norm_num, C1_remap_table_monotone_bounded 0.1 (by norm_num)⟩

/-- C2: for `vignetteParam` in `0..100` and an image with at least one row and one column,
the radius is at least 1 and the blur kernel size is positive and odd, equal to the radius
when the radius is odd and to the radius plus one when it is even, hence the least odd
integer not below the radius; with `vignetteParam = 0` the radius and kernel size are 1. -/
theorem C2_kernel_size_positive_odd (vignetteParam : Int) (img : Mat Pixel)
    (hv0 : 0 ≤ vignetteParam) (hv1 : vignetteParam ≤ 100)
    (_hr : 1 ≤ img.rows) (_hc : 1 ≤ img.cols) :
    1 ≤ vignetteRadius vignetteParam img ∧
    0 < blurKernelSize (vignetteRadius vignetteParam img) ∧
    blurKernelSize (vignetteRadius vignetteParam img) % 2 = 1 ∧
    blurKernelSize (vignetteRadius vignetteParam img) =
      (if vignetteRadius vignetteParam img % 2 = 1 then vignetteRadius vignetteParam img
       else vignetteRadius vignetteParam img + 1) ∧
    vignetteRadius vignetteParam img ≤ blurKernelSize (vignetteRadius vignetteParam img) ∧
    (∀ k : Int, vignetteRadius vignetteParam img ≤ k → k % 2 = 1 →
      blurKernelSize (vignetteRadius vignetteParam img) ≤ k) ∧
    (vignetteParam = 0 →
      vignetteRadius vignetteParam img = 1 ∧
      blurKernelSize (vignetteRadius vignetteParam img) = 1) := by
  have h1 := one_le_vignetteRadius vignetteParam img
  have hk := blurKernelSize_eq h1
  refine ⟨h1, ?_, ?_, hk, ?_, ?_, ?_⟩
  · rw [hk]; split_ifs <;> omega
  · rw [hk]; split_ifs <;> omega
  · rw [hk]; split_ifs <;> omega
  · intro k hle hodd
    rw [hk]; split_ifs <;> omega
  · intro hz
    subst hz
    have hrad : vignetteRadius 0 img = 1 := by
      simp [vignetteRadius, Int.tdiv]
    rw [hrad]
    exact ⟨rfl, by decide⟩

/-- Witness of C2 at `vignetteParam = 0` on the 4×4 mid-gray image. -/
theorem C2_kernel_size_witness :
    (0 : Int) ≤ 0 ∧ (0 : Int) ≤ 100 ∧ 1 ≤ (uniform 4 4 midGray).rows ∧
    1 ≤ (uniform 4 4 midGray).cols ∧
    vignetteRadius 0 (uniform 4 4 midGray) = 1 ∧
    blurKernelSize (vignetteRadius 0 (uniform 4 4 midGray)) = 1 :=
  ⟨by decide, by decide, by decide, by decide,
    (C2_kernel_size_positive_odd 0 (uniform 4 4 midGray) (by decide) (by decide)
      (by decide) (by decide)).2.2.2.2.2.2 rfl⟩

/-- C3: `applyColorFilter` writes an image with the dimensions and element count of the
input image in which, at every position, channels 0 and 1 are those of the input pixel and
channel 2 is the table entry at the input pixel's channel 2; the input image is the same
after the call as before it. -/
theorem C3_tone_curve_frame {K : Type} [LinearOrderedField K] [FloorRing K]
    (expf : K → K) (s : State K) :
    (applyColorFilter expf s).colorFilteredImage.rows = s.inputImage.rows ∧
    (applyColorFilter expf s).colorFilteredImage.cols = s.inputImage.cols ∧
    (applyColorFilter expf s).colorFilteredImage.data.length = s.inputImage.data.length ∧
    (∀ r c : Nat, (applyColorFilter expf s).colorFilteredImage.at? r c =
      (s.inputImage.at? r c).map
        (fun p => ⟨p.c0, p.c1, (buildLut expf s.colorParam).data.getD p.c2 0⟩)) ∧
    (∀ k : Nat, (applyColorFilter expf s).colorFilteredImage.data[k]? =
      (s.inputImage.data[k]?).map
        (fun p => ⟨p.c0, p.c1, (buildLut expf s.colorParam).data.getD p.c2 0⟩)) ∧
    (applyColorFilter expf s).inputImage = s.inputImage := by
  have hcf : (applyColorFilter expf s).colorFilteredImage =
      toneCurve expf s.inputImage s.colorParam := rfl
  refine ⟨?_, ?_, ?_, ?_, ?_, rfl⟩
  · rw [hcf, toneCurve_eq]
  · rw [hcf, toneCurve_eq]
  · rw [hcf, toneCurve_eq]; simp
  · intro r c
    rw [hcf, toneCurve_at?]
  · intro k
    rw [hcf, toneCurve_eq]; simp [List.getElem?_map]

/-- C4: for a slider value `v` in `0..20`, `onColorTrackbar v` sets
`colorParam = max(0.08, v/100)`, which lies between 0.08 and 0.20 and is 0.08 when `v ≤ 8`;
the state handed to the tone curve inside the callback has that clamped value; the loaded
state has `colorParam = 0.1`; and every reachable state `t` has `colorParam ≥ 0.08`. -/
theorem C4_colorParam_clamped {K : Type} [LinearOrderedField K] [FloorRing K]
    (expf : K → K) (haloBlend : Nat → Nat → Int → Int → Mat Pixel → Mat Pixel)
    (v : Int) (s t : State K) (h0 : 0 ≤ v) (h20 : v ≤ 20)
    (ht : Reachable expf haloBlend t) :
    (onColorTrackbar expf haloBlend v s).colorParam = max 0.08 ((v : K) / 100) ∧
    (0.08 : K) ≤ (onColorTrackbar expf haloBlend v s).colorParam ∧
    (onColorTrackbar expf haloBlend v s).colorParam ≤ 0.20 ∧
    (v ≤ 8 → (onColorTrackbar expf haloBlend v s).colorParam = 0.08) ∧
    onColorTrackbar expf haloBlend v s =
      applyVignetteFilter haloBlend
        (applyColorFilter expf { s with colorParam := max 0.08 ((v : K) / 100) }) ∧
    (∀ img : Mat Pixel, (loaded img : State K).colorParam = 0.1) ∧
    (0.08 : K) ≤ t.colorParam := by
  have hcp : (onColorTrackbar expf haloBlend v s).colorParam = max 0.08 ((v : K) / 100) := by
    show max (0.08 : K) ((v : K) / 100.0) = max 0.08 ((v : K) / 100)
    norm_num
  have hv0 : (0 : K) ≤ (v : K) := by exact_mod_cast h0
  have hv20 : (v : K) ≤ 20 := by exact_mod_cast h20
  refine ⟨hcp, ?_, ?_, ?_, ?_, fun _ => rfl, reachable_colorParam_ge expf haloBlend ht⟩
  · rw [hcp]; exact le_max_left _ _
  · rw [hcp]
    apply max_le (by norm_num)
    have : (v : K) / 100 ≤ 20 / 100 := div_le_div_of_nonneg_right hv20 (by norm_num)
    calc (v : K) / 100 ≤ 20 / 100 := this
      _ = 0.20 := by norm_num
  · intro h8
    rw [hcp]
    apply max_eq_left
    have hv8 : (v : K) ≤ 8 := by exact_mod_cast h8
    have : (v : K) / 100 ≤ 8 / 100 := div_le_div_of_nonneg_right hv8 (by norm_num)
    calc (v : K) / 100 ≤ 8 / 100 := this
      _ = 0.08 := by norm_num
  · have h100 : ((v : K) / 100.0) = (v : K) / 100 := by norm_num
    rw [← h100]
    rfl

/-- Witness of C4: slider value 5 on the loaded 4×4 mid-gray image. -/
theorem C4_colorParam_clamped_witness :
    (0 : Int) ≤ 5 ∧ (5 : Int) ≤ 20 ∧
    Reachable Real.exp unitBlend (loaded (uniform 4 4 midGray)) ∧
    (onColorTrackbar Real.exp unitBlend 5 (loaded (uniform 4 4 midGray))).colorParam = 0.08 ∧
    (0.08 : ℝ) ≤ (loaded (uniform 4 4 midGray) : State ℝ).colorParam :=
  have hload : Reachable Real.exp unitBlend (loaded (uniform 4 4 midGray)) :=
    Reachable.load _ (by decide)
  have h := C4_colorParam_clamped Real.exp unitBlend 5
    (loaded (uniform 4 4 midGray)) (loaded (uniform 4 4 midGray))
    (by decide) (by decide) hload
  ⟨by decide, by decide, hload, h.2.2.2.1 (by decide), h.2.2.2.2.2.2⟩

/-- C6 as stated fails: on a 6×6 image with `vignetteParam = 60` the code computes radius 1
(180 / 100 truncated), while rounding the exact quotient 1.8 gives 2. -/
theorem C6_counterexample :
    vignetteRadius 60 (uniform 6 6 midGray) = 1 ∧ radiusSpec 60 6 6 = 2 := by
  constructor
  · decide
  · unfold radiusSpec
    norm_num [round_eq]

/-- C6 amended: for `vignetteParam` in `0..100` the radius is
`max(1, floor(vignetteParam * maxRadius / 100))`, the exact quotient rounded down, with
`maxRadius = min(w, h) / 2` by integer division. -/
theorem C6_radius_floor (vignetteParam : Int) (img : Mat Pixel)
    (h0 : 0 ≤ vignetteParam) (_h1 : vignetteParam ≤ 100) :
    maxRadius img = ((min img.rows img.cols / 2 : Nat) : Int) ∧
    vignetteRadius vignetteParam img =
      max 1 ⌊(((vignetteParam * ((min img.rows img.cols / 2 : Nat) : Int) : Int) : ℚ)) / 100⌋ := by
  refine ⟨maxRadius_eq img, ?_⟩
  rw [vignetteRadius_eq h0 img]
  have hfl := Rat.floor_intCast_div_natCast
    (vignetteParam * ((min img.rows img.cols / 2 : Nat) : Int)) 100
  have hcast : ((100 : Nat) : ℚ) = 100 := by norm_num
  rw [hcast] at hfl
  rw [hfl]
  rfl

/-- Witness of C6 amended: `vignetteParam = 60` on the 6×6 mid-gray image gives radius 1. -/
theorem C6_radius_floor_witness :
    (0 : Int) ≤ 60 ∧ (60 : Int) ≤ 100 ∧
    vignetteRadius 60 (uniform 6 6 midGray) =
      max 1 ⌊(((60 * ((min (uniform 6 6 midGray).rows (uniform 6 6 midGray).cols / 2 : Nat) : Int)
        : Int) : ℚ)) / 100⌋ :=
  ⟨by decide, by decide,
    (C6_radius_floor 60 (uniform 6 6 midGray) (by decide) (by decide)).2⟩

/-- C7 as stated fails: on the 1×1 image with `vignetteParam = 100` the radius is 1,
while `1 / 2 = 0`. -/
theorem C7_counterexample :
    (uniform 1 1 midGray).rows = 1 ∧ (uniform 1 1 midGray).cols = 1 ∧
    vignetteRadius 100 (uniform 1 1 midGray) = 1 ∧
    (((uniform 1 1 midGray).rows / 2 : Nat) : Int) = 0 := by
  decide

/-- C7 amended: for a square image of side `w ≥ 1` and `vignetteParam = 100` the radius is
`max(1, w / 2)`, which is `w / 2` for every `w ≥ 2`. -/
theorem C7_square_full_radius (img : Mat Pixel) (w : Nat)
    (hrows : img.rows = w) (hcols : img.cols = w) (_hw : 1 ≤ w) :
    vignetteRadius 100 img = max 1 ((w / 2 : Nat) : Int) ∧
    (2 ≤ w → vignetteRadius 100 img = ((w / 2 : Nat) : Int)) := by
  have hrad : vignetteRadius 100 img = max 1 ((w / 2 : Nat) : Int) := by
    rw [vignetteRadius_eq (by decide) img, hrows, hcols, min_self]
    congr 1
    omega
  refine ⟨hrad, fun h2 => ?_⟩
  rw [hrad]
  apply max_eq_right
  omega

/-- Witness of C7 amended: the 4×4 mid-gray image has radius 2 at `vignetteParam = 100`. -/
theorem C7_square_full_radius_witness :
    (uniform 4 4 midGray).rows = 4 ∧ (uniform 4 4 midGray).cols = 4 ∧ 1 ≤ 4 ∧
    vignetteRadius 100 (uniform 4 4 midGray) = ((4 / 2 : Nat) : Int) :=
  ⟨rfl, rfl, by decide,
    (C7_square_full_radius (uniform 4 4 midGray) 4 rfl rfl (by decide)).2 (by decide)⟩

/-- C8: over the reals, for every `colorParam ≥ 0.08` the table entry at 128 is 128, and
the tone curve maps an image whose every pixel is mid-gray (128, 128, 128) to itself; so
does `applyColorFilter` on a state holding that image and parameter. -/
theorem C8_mid_gray_fixed_point (colorParam : ℝ) (_h : 0.08 ≤ colorParam)
    (source : Mat Pixel) (hu : ∀ p ∈ source.data, p = midGray) :
    (buildLut Real.exp colorParam).data.getD 128 0 = 128 ∧
    toneCurve Real.exp source colorParam = source ∧
    (∀ s : State ℝ, s.inputImage = source → s.colorParam = colorParam →
      (applyColorFilter Real.exp s).colorFilteredImage = s.inputImage) := by
  have h128 : (buildLut Real.exp colorParam).data.getD 128 0 = 128 := by
    rw [buildLut_getD Real.exp colorParam (by decide)]
    exact lutEntry_mid Real.exp Real.exp_zero colorParam
  have htone : toneCurve Real.exp source colorParam = source := by
    rw [toneCurve_eq]
    have hmap : source.data.map
        (fun p => (⟨p.c0, p.c1, (buildLut Real.exp colorParam).data.getD p.c2 0⟩ : Pixel)) =
        source.data := by
      conv_rhs => rw [← List.map_id source.data]
      apply List.map_congr_left
      intro p hp
      rw [hu p hp]
      show (⟨128, 128, (buildLut Real.exp colorParam).data.getD 128 0⟩ : Pixel) = midGray
      rw [h128]
      rfl
    rw [hmap]
  refine ⟨h128, htone, ?_⟩
  intro s hs hc
  show toneCurve Real.exp s.inputImage s.colorParam = s.inputImage
  rw [hs, hc, htone]

/-- Witness of C8: the 4×4 mid-gray image at the initial `colorParam = 0.1`. -/
theorem C8_mid_gray_witness :
    (0.08 : ℝ) ≤ 0.1 ∧ (∀ p ∈ (uniform 4 4 midGray).data, p = midGray) ∧
    (buildLut Real.exp (0.1 : ℝ)).data.getD 128 0 = 128 ∧
    toneCurve Real.exp (uniform 4 4 midGray) (0.1 : ℝ) = uniform 4 4 midGray :=
  have hu : ∀ p ∈ (uniform 4 4 midGray).data, p = midGray := fun _ hp =>
    List.eq_of_mem_replicate hp
  have h := C8_mid_gray_fixed_point 0.1 (by norm_num) (uniform 4 4 midGray) hu
  ⟨by norm_num, hu, h.1, h.2.1⟩

/-- C9: handling `ColorChanged v` a second time changes nothing: the state after the second
call of `onColorTrackbar v` is the state after the first, so `finalImage`, `colorParam` and
`colorFilteredImage` are the same both times, for any blend function. -/
theorem C9_color_changed_idempotent {K : Type} [LinearOrderedField K] [FloorRing K]
    (expf : K → K) (haloBlend : Nat → Nat → Int → Int → Mat Pixel → Mat Pixel)
    (v : Int) (s : State K) :
    handle expf haloBlend (Event.ColorChanged v)
        (handle expf haloBlend (Event.ColorChanged v) s) =
      handle expf haloBlend (Event.ColorChanged v) s ∧
    (onColorTrackbar expf haloBlend v (onColorTrackbar expf haloBlend v s)).finalImage =
      (onColorTrackbar expf haloBlend v s).finalImage ∧
    (onColorTrackbar expf haloBlend v (onColorTrackbar expf haloBlend v s)).colorParam =
      (onColorTrackbar expf haloBlend v s).colorParam ∧
    (onColorTrackbar expf haloBlend v (onColorTrackbar expf haloBlend v s)).colorFilteredImage =
      (onColorTrackbar expf haloBlend v s).colorFilteredImage := by
  have hdep : ∀ a b : State K, a.inputImage = b.inputImage →
      a.vignetteParam = b.vignetteParam →
      onColorTrackbar expf haloBlend v a = onColorTrackbar expf haloBlend v b := by
    intro a b hi hv
    simp only [onColorTrackbar, applyColorFilter, applyVignetteFilter, hi, hv]
  have hidem : onColorTrackbar expf haloBlend v (onColorTrackbar expf haloBlend v s) =
      onColorTrackbar expf haloBlend v s :=
    hdep _ _ rfl rfl
  refine ⟨hidem, ?_, ?_, ?_⟩ <;> rw [hidem]

/-- C10: in every state `s` from the initial display on, `colorFilteredImage` is the tone
curve of `inputImage` at the current `colorParam`, `finalImage` is the vignette of
`colorFilteredImage` at the current `vignetteParam`, and the image shown is `finalImage`.
`ColorChanged v` sets `colorParam = max(0.08, v/100)`, keeps `vignetteParam` and recomputes
both derived images from them. `VignetteChanged w` sets `vignetteParam = w`, keeps
`colorParam`, `inputImage` and the cached `colorFilteredImage`, and recomputes `finalImage`
from the cache at `w`. The initial display of a non-empty loaded image `img` has
`colorParam = 0.1`, `vignetteParam = 100` and both derived images computed from them. After
each of the three the image shown is the new `finalImage`. -/
theorem C10_cache_consistency {K : Type} [LinearOrderedField K] [FloorRing K]
    (expf : K → K) (haloBlend : Nat → Nat → Int → Int → Mat Pixel → Mat Pixel)
    (s : State K) (h : Rendered expf haloBlend s) (v w : Int)
    (img : Mat Pixel) (himg : img.empty = false) :
    (s.colorFilteredImage = toneCurve expf s.inputImage s.colorParam ∧
      s.finalImage = vignette haloBlend s.inputImage s.colorFilteredImage s.vignetteParam ∧
      s.shown = s.finalImage) ∧
    ((handle expf haloBlend (Event.ColorChanged v) s).colorParam = max 0.08 ((v : K) / 100) ∧
      (handle expf haloBlend (Event.ColorChanged v) s).vignetteParam = s.vignetteParam ∧
      (handle expf haloBlend (Event.ColorChanged v) s).inputImage = s.inputImage ∧
      (handle expf haloBlend (Event.ColorChanged v) s).colorFilteredImage =
        toneCurve expf s.inputImage (max 0.08 ((v : K) / 100)) ∧
      (handle expf haloBlend (Event.ColorChanged v) s).finalImage =
        vignette haloBlend s.inputImage
          (toneCurve expf s.inputImage (max 0.08 ((v : K) / 100))) s.vignetteParam ∧
      (handle expf haloBlend (Event.ColorChanged v) s).shown =
        (handle expf haloBlend (Event.ColorChanged v) s).finalImage) ∧
    ((handle expf haloBlend (Event.VignetteChanged w) s).vignetteParam = w ∧
      (handle expf haloBlend (Event.VignetteChanged w) s).colorParam = s.colorParam ∧
      (handle expf haloBlend (Event.VignetteChanged w) s).inputImage = s.inputImage ∧
      (handle expf haloBlend (Event.VignetteChanged w) s).colorFilteredImage =
        toneCurve expf s.inputImage s.colorParam ∧
      (handle expf haloBlend (Event.VignetteChanged w) s).finalImage =
        vignette haloBlend s.inputImage (toneCurve expf s.inputImage s.colorParam) w ∧
      (handle expf haloBlend (Event.VignetteChanged w) s).shown =
        (handle expf haloBlend (Event.VignetteChanged w) s).finalImage) ∧
    ((initialDisplay expf haloBlend (loaded img)).colorParam = 0.1 ∧
      (initialDisplay expf haloBlend (loaded img)).vignetteParam = 100 ∧
      (initialDisplay expf haloBlend (loaded img)).inputImage = img ∧
      (initialDisplay expf haloBlend (loaded img)).colorFilteredImage =
        toneCurve expf img 0.1 ∧
      (initialDisplay expf haloBlend (loaded img)).finalImage =
        vignette haloBlend img (toneCurve expf img 0.1) 100 ∧
      (initialDisplay expf haloBlend (loaded img)).shown =
        (initialDisplay expf haloBlend (loaded img)).finalImage) := by
  obtain ⟨hne, hcf, hfin, hshown⟩ := rendered_consistent expf haloBlend h
  have h100 : ((v : K) / 100.0) = (v : K) / 100 := by norm_num
  have hcne : s.colorFilteredImage.empty = false := by
    rw [hcf, toneCurve_empty]; exact hne
  have hcolor : handle expf haloBlend (Event.ColorChanged v) s =
      onColorTrackbar expf haloBlend v s := rfl
  have hvig : handle expf haloBlend (Event.VignetteChanged w) s =
      onVignetteTrackbar haloBlend w s := rfl
  have hinit : initialDisplay expf haloBlend (loaded img) =
      applyVignetteFilter haloBlend (applyColorFilter expf (loaded img)) := rfl
  refine ⟨⟨hcf, hfin, hshown⟩, ?_, ?_, ?_⟩
  · rw [hcolor, onColorTrackbar_eq expf haloBlend v s hne, h100]
    exact ⟨rfl, rfl, rfl, rfl, rfl, rfl⟩
  · rw [hvig, onVignetteTrackbar_eq haloBlend w s hcne]
    refine ⟨rfl, rfl, rfl, hcf, ?_, rfl⟩
    show vignette haloBlend s.inputImage s.colorFilteredImage w = _
    rw [hcf]
  · rw [hinit, pipeline_fields expf haloBlend (loaded img) himg]
    exact ⟨rfl, rfl, rfl, rfl, rfl, rfl⟩

/-- Witness of C10: the state after the initial display of the 4×4 mid-gray image, then
`ColorChanged 5` and `VignetteChanged 50` on it. -/
theorem C10_cache_consistency_witness :
    Rendered Real.exp unitBlend
      (initialDisplay Real.exp unitBlend (loaded (uniform 4 4 midGray))) ∧
    (uniform 4 4 midGray).empty = false ∧
    (initialDisplay Real.exp unitBlend (loaded (uniform 4 4 midGray))).colorFilteredImage =
      toneCurve Real.exp
        (initialDisplay Real.exp unitBlend (loaded (uniform 4 4 midGray))).inputImage
        (initialDisplay Real.exp unitBlend (loaded (uniform 4 4 midGray))).colorParam ∧
    (handle Real.exp unitBlend (Event.ColorChanged 5)
      (initialDisplay Real.exp unitBlend (loaded (uniform 4 4 midGray)))).colorParam =
        max 0.08 (((5 : Int) : ℝ) / 100) ∧
    (handle Real.exp unitBlend (Event.VignetteChanged 50)
      (initialDisplay Real.exp unitBlend (loaded (uniform 4 4 midGray)))).vignetteParam = 50 ∧
    (initialDisplay Real.exp unitBlend (loaded (uniform 4 4 midGray))).vignetteParam = 100 :=
  have hr : Rendered Real.exp unitBlend
      (initialDisplay Real.exp unitBlend (loaded (uniform 4 4 midGray))) :=
    Rendered.display (Reachable.load _ (by decide))
  have h := C10_cache_consistency Real.exp unitBlend _ hr 5 50
    (uniform 4 4 midGray) (by decide)
  ⟨hr, by decide, h.1.1, h.2.1.1, h.2.2.1.1, h.2.2.2.2.1⟩

end Lomography
